import Mathlib

/-!
Shallow embedding of `graphs_py/gc_one_file.py`: the Monte-Carlo comparison of
the conditional-independence (d-separation) structure of a true graph against
an estimated graph.

Node identifiers in the program are arbitrary sortable labels (the graphs are
networkx objects with named nodes); they are modelled here as natural numbers,
a faithful order-preserving relabeling.  Python floats are modelled as exact
rationals.  Python exceptions (NodeNotFound, IndexError) are modelled with
`Except String`.  The three seeded pseudo-random generators feeding the run
(`random`, `np.random`, `np.random.default_rng`, lines 73-75) are modelled as
an explicit per-trial draw stream `Nat → TrialDraw`: the library generators
are deterministic functions of their seed, so a run is a function of the
stream, and the values a real stream can produce are captured by `ValidDraw`.
-/

abbrev Node := Nat

/-- A directed graph over a finite named node set (the pickled networkx DAG
loaded at lines 54 and 61).  Edges play no role in the comparison driver
itself: the d-separation verdict is delegated to the external networkx
primitive, modelled below as an oracle parameter. -/
structure NxDiGraph where
  nodes : List Node
  edges : List (Node × Node)

/-- The d-separation verdict an exact external primitive would return for
nodes that exist in the graph; the comparison driver treats it as an opaque
boolean-valued collaborator. -/
abbrev Oracle := NxDiGraph → Node → Node → List Node → Bool

/-- Models the external primitive `nx.d_separated(g, {x}, {y}, z)`: if the
predictor `x`, the target `y` or any conditioning-set member is not a known
node of `g`, networkx raises a `NodeNotFound` lookup error; otherwise the
exact verdict (supplied by the oracle) is returned.  (networkx also rejects
cyclic graphs; the repository only ever loads DAGs, so acyclicity is not
modelled.) -/
def d_separated (verdict : Oracle) (g : NxDiGraph) (x y : Node) (z : List Node) :
    Except String Bool :=
  if x ∈ g.nodes ∧ y ∈ g.nodes ∧ ∀ w ∈ z, w ∈ g.nodes then
    Except.ok (verdict g x y z)
  else
    Except.error "NodeNotFound"

/-- Number of predictors: `n = d - 1` where `d = len(g_true.nodes)`
(lines 56-58). -/
def nPredictors (g : NxDiGraph) : Nat := g.nodes.length - 1

/-- Lines 84-86: the cardinality distribution over conditioning-set sizes,
`probs[i] = comb(n-1, i) / 2**(n-1)` for `i in range(n)`. -/
def probs (n : Nat) : List ℚ :=
  (List.range n).map (fun i => (Nat.choose (n - 1) i : ℚ) / 2 ^ (n - 1))

/-- Lines 89-93 (and 63-67): `predictors = list(g_true.nodes)`, sorted
ascending, with the target removed.  Python's stable ascending `list.sort`
is modelled by `insertionSort`; `remove` (first occurrence) by `erase`.
The list is rebuilt from the graph at the start of every trial. -/
def mkPredictors (g : NxDiGraph) (target : Node) : List Node :=
  (g.nodes.insertionSort (· ≤ ·)).erase target

/-- The random values one iteration of the while-loop consumes:
`ind = random.randint(0, n-1)` (line 95), `card = np.random.choice(np.arange(n),
p=probs)` (line 104), and `indices = rng.choice(n-1, size=card, replace=False)`
(line 113, only consumed when `card ≠ 0`). -/
structure TrialDraw where
  ind : Nat
  card : Nat
  indices : List Nat

/-- The values the bounded library generators can actually produce:
`randint(0, n-1)` is uniform on `[0, n-1]`; `np.random.choice(np.arange(n), p)`
lands in `[0, n-1]`; `rng.choice(n-1, size=card, replace=False)` yields `card`
distinct indices below `n - 1`. -/
def ValidDraw (n : Nat) (t : TrialDraw) : Prop :=
  t.ind < n ∧ t.card < n ∧
    (t.card ≠ 0 →
      t.indices.length = t.card ∧ t.indices.Nodup ∧ ∀ j ∈ t.indices, j < n - 1)

instance (n : Nat) (t : TrialDraw) : Decidable (ValidDraw n t) := by
  unfold ValidDraw; infer_instance

/-- The feature of interest, `node = predictors[ind]` (line 97).  Indexing is
total here with a default; `runTrial` guards the bound exactly where Python
would raise `IndexError`. -/
def trialNode (g : NxDiGraph) (target : Node) (t : TrialDraw) : Node :=
  (mkPredictors g target).getD t.ind 0

/-- Lines 99-100: `deconfounders = predictors; deconfounders.remove(node)` —
the alias mutates the trial's own predictor list, leaving the predictors
except the feature of interest (the list is rebuilt next trial). -/
def trialDeconfounders (g : NxDiGraph) (target : Node) (t : TrialDraw) : List Node :=
  (mkPredictors g target).erase (trialNode g target t)

/-- Lines 105-118: the conditioning set — empty when the drawn cardinality is
zero, otherwise `{deconfounders[index] : index ∈ indices}`.  The Python `set`
is modelled as the list of collected members (its members are distinct under
the run's invariants, proved below). -/
def trialCondSet (g : NxDiGraph) (target : Node) (t : TrialDraw) : List Node :=
  if t.card = 0 then []
  else t.indices.map (fun j => (trialDeconfounders g target t).getD j 0)

/-- One iteration of the while-loop (lines 88-121): rebuild the predictor
list, pick the feature of interest, build the conditioning set, and test
d-separation of `{node}` and `{target}` in the true graph and then in the
estimated graph.  Out-of-range indexing is the Python `IndexError`. -/
def runTrial (verdict : Oracle) (gTrue gEst : NxDiGraph) (target : Node)
    (t : TrialDraw) : Except String (Bool × Bool) :=
  let predictors := mkPredictors gTrue target
  if t.ind < predictors.length then
    let node := trialNode gTrue target t
    let deconfounders := trialDeconfounders gTrue target t
    if t.card ≠ 0 ∧ ¬ (∀ j ∈ t.indices, j < deconfounders.length) then
      Except.error "IndexError"
    else do
      let condSet := trialCondSet gTrue target t
      let a ← d_separated verdict gTrue node target condSet
      let b ← d_separated verdict gEst node target condSet
      pure (a, b)
  else
    Except.error "IndexError"

/-- The while-loop of lines 87-121: run `mc` trials, appending the true-graph
verdict to `d_seps_true` and the estimated-graph verdict to `d_seps_est`;
trial `k` consumes draw `stream k`.  An uncaught exception aborts the run. -/
def runVerdicts (verdict : Oracle) (gTrue gEst : NxDiGraph) (target : Node)
    (stream : Nat → TrialDraw) : Nat → Except String (List Bool × List Bool)
  | 0 => Except.ok ([], [])
  | m + 1 => do
    let (ts, es) ← runVerdicts verdict gTrue gEst target stream m
    let (a, b) ← runTrial verdict gTrue gEst target (stream m)
    pure (ts ++ [a], es ++ [b])

/-- The four confusion counters (lines 123-126). -/
structure Counters where
  tp : Nat
  tn : Nat
  fp : Nat
  fn : Nat
deriving DecidableEq, Repr

/-- Lines 130 and 135 test `d_seps_true is True`: Python identity of the
*list object* `d_seps_true` with the boolean singleton `True`.  A list is
never that object, so the test is constantly false. -/
def pyListIsTrue (_l : List Bool) : Bool := false

/-- The body of the accumulation loop (lines 129-138) at index `i`, exactly
as written: the agreement test compares the indexed verdicts, but both inner
branches test the list object `d_seps_true` against `True`.  (Indexing is
modelled with a default; in every run both lists have length `mc`.) -/
def classify (dSepsTrue dSepsEst : List Bool) (c : Counters) (i : Nat) : Counters :=
  if dSepsTrue.getD i false == dSepsEst.getD i false then
    if pyListIsTrue dSepsTrue then { c with tp := c.tp + 1 }
    else { c with tn := c.tn + 1 }
  else
    if pyListIsTrue dSepsTrue then { c with fn := c.fn + 1 }
    else { c with fp := c.fp + 1 }

/-- The accumulation loop of lines 123-138: `for i in range(len(d_seps_true))`
over zero-initialised counters. -/
def accumulate (dSepsTrue dSepsEst : List Bool) : Counters :=
  (List.range dSepsTrue.length).foldl (classify dSepsTrue dSepsEst) ⟨0, 0, 0, 0⟩

/-- The whole run: sample and test `mc` trials, then fold the two verdict
lists into the confusion counters. -/
def runCounters (verdict : Oracle) (gTrue gEst : NxDiGraph) (target : Node)
    (stream : Nat → TrialDraw) (mc : Nat) : Except String Counters := do
  let (ts, es) ← runVerdicts verdict gTrue gEst target stream mc
  pure (accumulate ts es)

/-- Line 140: `d_separated_total = tp + fn`. -/
def d_separated_total (c : Counters) : Nat := c.tp + c.fn

/-- Line 141: `d_connected_total = tn + fp`. -/
def d_connected_total (c : Counters) : Nat := c.tn + c.fp

/-- Sum of the four confusion counters. -/
def Counters.total (c : Counters) : Nat := c.tp + c.tn + c.fp + c.fn

lemma classify_eq (dT dE : List Bool) (c : Counters) (i : Nat) :
    classify dT dE c i =
      if dT.getD i false == dE.getD i false then { c with tn := c.tn + 1 }
      else { c with fp := c.fp + 1 } := by
  simp [classify, pyListIsTrue]

lemma foldl_classify_tp (dT dE : List Bool) (l : List Nat) (c : Counters) :
    (l.foldl (classify dT dE) c).tp = c.tp := by
  induction l generalizing c with
  | nil => rfl
  | cons a l ih => rw [List.foldl_cons, classify_eq]; split <;> rw [ih]

lemma foldl_classify_fn (dT dE : List Bool) (l : List Nat) (c : Counters) :
    (l.foldl (classify dT dE) c).fn = c.fn := by
  induction l generalizing c with
  | nil => rfl
  | cons a l ih => rw [List.foldl_cons, classify_eq]; split <;> rw [ih]

lemma foldl_classify_tn (dT dE : List Bool) (l : List Nat) (c : Counters) :
    (l.foldl (classify dT dE) c).tn =
      c.tn + l.countP (fun i => dT.getD i false == dE.getD i false) := by
  induction l generalizing c with
  | nil => simp
  | cons a l ih =>
    rw [List.foldl_cons, List.countP_cons, classify_eq]
    split
    next h => rw [ih]; simp [h]; omega
    next h => rw [ih]; simp [h]

lemma foldl_classify_fp (dT dE : List Bool) (l : List Nat) (c : Counters) :
    (l.foldl (classify dT dE) c).fp =
      c.fp + l.countP (fun i => !(dT.getD i false == dE.getD i false)) := by
  induction l generalizing c with
  | nil => simp
  | cons a l ih =>
    rw [List.foldl_cons, List.countP_cons, classify_eq]
    split
    next h => rw [ih]; simp only [h, Bool.not_true]; simp
    next h =>
      simp only [Bool.not_eq_true] at h
      rw [ih]; simp only [h, Bool.not_false]; simp; omega

lemma foldl_classify_total (dT dE : List Bool) (l : List Nat) (c : Counters) :
    (l.foldl (classify dT dE) c).total = c.total + l.length := by
  induction l generalizing c with
  | nil => simp
  | cons a l ih =>
    rw [List.foldl_cons, classify_eq]
    split <;> rw [ih] <;> simp [Counters.total] <;> omega

lemma accumulate_tp (dT dE : List Bool) : (accumulate dT dE).tp = 0 :=
  foldl_classify_tp dT dE _ _

lemma accumulate_fn (dT dE : List Bool) : (accumulate dT dE).fn = 0 :=
  foldl_classify_fn dT dE _ _

lemma accumulate_tn (dT dE : List Bool) :
    (accumulate dT dE).tn =
      (List.range dT.length).countP
        (fun i => dT.getD i false == dE.getD i false) := by
  unfold accumulate
  rw [foldl_classify_tn]
  simp

lemma accumulate_fp (dT dE : List Bool) :
    (accumulate dT dE).fp =
      (List.range dT.length).countP
        (fun i => !(dT.getD i false == dE.getD i false)) := by
  unfold accumulate
  rw [foldl_classify_fp]
  simp

lemma accumulate_total (dT dE : List Bool) :
    (accumulate dT dE).total = dT.length := by
  unfold accumulate
  rw [foldl_classify_total]
  simp [Counters.total]

lemma runVerdicts_ok_length {verdict : Oracle} {gT gE : NxDiGraph} {target : Node}
    {stream : Nat → TrialDraw} {mc : Nat} {ts es : List Bool}
    (h : runVerdicts verdict gT gE target stream mc = Except.ok (ts, es)) :
    ts.length = mc ∧ es.length = mc := by
  induction mc generalizing ts es with
  | zero =>
    simp only [runVerdicts, Except.ok.injEq, Prod.mk.injEq] at h
    obtain ⟨h1, h2⟩ := h
    simp [← h1, ← h2]
  | succ m ih =>
    simp only [runVerdicts, bind, Except.bind] at h
    cases hm : runVerdicts verdict gT gE target stream m with
    | error e => rw [hm] at h; cases h
    | ok p =>
      rw [hm] at h
      obtain ⟨ts', es'⟩ := p
      cases ht : runTrial verdict gT gE target (stream m) with
      | error e => rw [ht] at h; cases h
      | ok ab =>
        rw [ht] at h
        obtain ⟨a, b⟩ := ab
        simp only [pure, Except.pure, Except.ok.injEq, Prod.mk.injEq] at h
        obtain ⟨h1, h2⟩ := h
        obtain ⟨l1, l2⟩ := ih hm
        rw [← h1, ← h2]
        simp [l1, l2]

lemma runCounters_ok {verdict : Oracle} {gT gE : NxDiGraph} {target : Node}
    {stream : Nat → TrialDraw} {mc : Nat} {c : Counters}
    (h : runCounters verdict gT gE target stream mc = Except.ok c) :
    ∃ ts es, runVerdicts verdict gT gE target stream mc = Except.ok (ts, es) ∧
      c = accumulate ts es ∧ ts.length = mc ∧ es.length = mc := by
  unfold runCounters at h
  cases hv : runVerdicts verdict gT gE target stream mc with
  | error e =>
    rw [hv] at h
    cases h
  | ok p =>
    obtain ⟨ts, es⟩ := p
    rw [hv] at h
    simp only [bind, Except.bind, pure, Except.pure, Except.ok.injEq] at h
    exact ⟨ts, es, rfl, h.symm,
      (runVerdicts_ok_length hv).1, (runVerdicts_ok_length hv).2⟩

/-- A concrete instantiation used by the witnesses: a two-node graph with
edge `1 → 0`, target node `0`, an oracle that always answers "separated",
and a stream that always picks predictor index 0 with an empty
conditioning set. -/
def demoVerdict : Oracle := fun _ _ _ _ => true

def demoGraph : NxDiGraph := ⟨[0, 1], [(1, 0)]⟩

def demoStream : Nat → TrialDraw := fun _ => ⟨0, 0, []⟩

/-- C1: the stated classification convention fails on the code.  Lines 130 and
135 test `d_seps_true is True` — the identity of the list object, which is
never the boolean `True` — so an agreeing trial with both verdicts
"separated" increments TN (the convention says TP), and a disagreeing trial
whose true verdict is "separated" increments FP (the convention says FN). -/
theorem classification_counterexample_trials :
    accumulate [true] [true] = ⟨0, 1, 0, 0⟩ ∧
      accumulate [true] [false] = ⟨0, 0, 1, 0⟩ := by decide

/-- C2: for every completed run with trial budget `mc`, the four confusion
counters satisfy `TP + TN + FP + FN = mc` exactly, and each counter is
non-negative. -/
theorem confusion_counters_sum_to_budget (verdict : Oracle) (gT gE : NxDiGraph)
    (target : Node) (stream : Nat → TrialDraw) (mc : Nat) (c : Counters)
    (h : runCounters verdict gT gE target stream mc = Except.ok c) :
    c.tp + c.tn + c.fp + c.fn = mc ∧
      0 ≤ c.tp ∧ 0 ≤ c.tn ∧ 0 ≤ c.fp ∧ 0 ≤ c.fn := by
  obtain ⟨ts, es, hv, hc, hts, hes⟩ := runCounters_ok h
  have htot := accumulate_total ts es
  unfold Counters.total at htot
  subst hc
  refine ⟨?_, Nat.zero_le _, Nat.zero_le _, Nat.zero_le _, Nat.zero_le _⟩
  omega

/-- Witness for C2 at a concrete completed run (budget 3). -/
theorem confusion_counters_sum_to_budget_witness :
    (Counters.mk 0 3 0 0).tp + (Counters.mk 0 3 0 0).tn +
        (Counters.mk 0 3 0 0).fp + (Counters.mk 0 3 0 0).fn = 3 ∧
      0 ≤ (Counters.mk 0 3 0 0).tp ∧ 0 ≤ (Counters.mk 0 3 0 0).tn ∧
      0 ≤ (Counters.mk 0 3 0 0).fp ∧ 0 ≤ (Counters.mk 0 3 0 0).fn :=
  confusion_counters_sum_to_budget demoVerdict demoGraph demoGraph 0
    demoStream 3 ⟨0, 3, 0, 0⟩ rfl

/-- C10: as written, the accumulation loop leaves `tp = 0` and `fn = 0` for
every pair of verdict lists — an agreeing trial increments TN and a
disagreeing one increments FP regardless of the verdicts — so for every
completed run `d_separated_total = 0` and `d_connected_total = mc`. -/
theorem accumulation_loop_as_written (dT dE : List Bool) (verdict : Oracle)
    (gT gE : NxDiGraph) (target : Node) (stream : Nat → TrialDraw) (mc : Nat)
    (c : Counters)
    (hrun : runCounters verdict gT gE target stream mc = Except.ok c) :
    (accumulate dT dE).tp = 0 ∧ (accumulate dT dE).fn = 0 ∧
      (accumulate dT dE).tn = (List.range dT.length).countP
        (fun i => dT.getD i false == dE.getD i false) ∧
      (accumulate dT dE).fp = (List.range dT.length).countP
        (fun i => !(dT.getD i false == dE.getD i false)) ∧
      d_separated_total c = 0 ∧ d_connected_total c = mc := by
  obtain ⟨ts, es, hv, hc, hts, hes⟩ := runCounters_ok hrun
  have htot := accumulate_total ts es
  unfold Counters.total at htot
  have h1 := accumulate_tp ts es
  have h2 := accumulate_fn ts es
  subst hc
  refine ⟨accumulate_tp dT dE, accumulate_fn dT dE, accumulate_tn dT dE,
    accumulate_fp dT dE, ?_, ?_⟩ <;>
    simp only [d_separated_total, d_connected_total] <;> omega

/-- Witness for C10 at concrete verdict lists and a concrete completed run
(budget 2). -/
theorem accumulation_loop_as_written_witness :
    (accumulate [true, false] [false, false]).tp = 0 ∧
      (accumulate [true, false] [false, false]).fn = 0 ∧
      (accumulate [true, false] [false, false]).tn =
        (List.range (List.length [true, false])).countP
          (fun i => (List.getD [true, false] i false) ==
            (List.getD [false, false] i false)) ∧
      (accumulate [true, false] [false, false]).fp =
        (List.range (List.length [true, false])).countP
          (fun i => !((List.getD [true, false] i false) ==
            (List.getD [false, false] i false))) ∧
      d_separated_total ⟨0, 2, 0, 0⟩ = 0 ∧ d_connected_total ⟨0, 2, 0, 0⟩ = 2 :=
  accumulation_loop_as_written [true, false] [false, false] demoVerdict
    demoGraph demoGraph 0 demoStream 2 ⟨0, 2, 0, 0⟩ rfl

lemma list_range_map_sum (n : Nat) (f : Nat → ℚ) :
    ((List.range n).map f).sum = ∑ i in Finset.range n, f i := by
  induction n with
  | zero => simp
  | succ m ih =>
    rw [List.range_succ, Finset.sum_range_succ, List.map_append,
      List.sum_append, ih]
    simp

lemma probs_sum_eq_one (n : Nat) (h : 1 ≤ n) : (probs n).sum = 1 := by
  obtain ⟨m, rfl⟩ : ∃ m, n = m + 1 := ⟨n - 1, by omega⟩
  unfold probs
  rw [list_range_map_sum]
  simp only [Nat.add_sub_cancel]
  rw [← Finset.sum_div]
  have key : ∑ i in Finset.range (m + 1), ((Nat.choose m i : ℚ)) = 2 ^ m := by
    have hnat := Nat.sum_range_choose m
    exact_mod_cast congrArg (fun k : ℕ => (k : ℚ)) hnat
  rw [key]
  exact div_self (by positivity)

/-- C4: the cardinality distribution assigns size `i` the weight
`C(n-1, i) / 2^(n-1)`; for every `n ≥ 1` these `n` weights sum to exactly 1
(so in particular within any floating-point tolerance), and for `n = 1` the
distribution is the point mass at size 0, making every valid drawn
cardinality 0 and hence every conditioning set empty. -/
theorem cardinality_distribution_ok (n : Nat) (h : 1 ≤ n) :
    (probs n).sum = 1 ∧ (probs n).length = n ∧
      (∀ i, i < n →
        (probs n).getD i 0 = (Nat.choose (n - 1) i : ℚ) / 2 ^ (n - 1)) ∧
      probs 1 = [1] ∧
      (∀ t : TrialDraw, ValidDraw 1 t → t.card = 0) ∧
      (∀ (g : NxDiGraph) (target : Node) (t : TrialDraw),
        t.card = 0 → trialCondSet g target t = []) := by
  refine ⟨probs_sum_eq_one n h, by simp [probs], ?_, ?_, ?_, ?_⟩
  · intro i hi
    unfold probs
    rw [List.getD_eq_getElem?_getD, List.getElem?_map]
    simp [List.getElem?_range hi]
  · show List.map _ (List.range 1) = _
    rw [List.range_succ, List.range_zero]
    norm_num
  · intro t ht
    have := ht.2.1
    omega
  · intro g target t ht
    simp [trialCondSet, ht]

/-- Witness for C4 at `n = 3`. -/
theorem cardinality_distribution_ok_witness :
    (probs 3).sum = 1 ∧ (probs 3).length = 3 ∧
      (∀ i, i < 3 →
        (probs 3).getD i 0 = (Nat.choose (3 - 1) i : ℚ) / 2 ^ (3 - 1)) ∧
      probs 1 = [1] ∧
      (∀ t : TrialDraw, ValidDraw 1 t → t.card = 0) ∧
      (∀ (g : NxDiGraph) (target : Node) (t : TrialDraw),
        t.card = 0 → trialCondSet g target t = []) :=
  cardinality_distribution_ok 3 (by norm_num)

lemma runTrial_same_graph {verdict : Oracle} {g : NxDiGraph} {target : Node}
    {t : TrialDraw} {a b : Bool}
    (h : runTrial verdict g g target t = Except.ok (a, b)) : a = b := by
  unfold runTrial at h
  dsimp only at h
  split at h
  · split at h
    · cases h
    · cases hd : d_separated verdict g (trialNode g target t) target
        (trialCondSet g target t) with
      | error e =>
        rw [hd] at h
        simp only [bind, Except.bind] at h
        cases h
      | ok x =>
        rw [hd] at h
        simp only [bind, Except.bind, pure, Except.pure, Except.ok.injEq,
          Prod.mk.injEq] at h
        rw [← h.1, ← h.2]
  · cases h

lemma runVerdicts_same_graph {verdict : Oracle} {g : NxDiGraph} {target : Node}
    {stream : Nat → TrialDraw} {mc : Nat} {ts es : List Bool}
    (h : runVerdicts verdict g g target stream mc = Except.ok (ts, es)) :
    ts = es := by
  induction mc generalizing ts es with
  | zero =>
    simp only [runVerdicts, Except.ok.injEq, Prod.mk.injEq] at h
    rw [← h.1, ← h.2]
  | succ m ih =>
    simp only [runVerdicts, bind, Except.bind] at h
    cases hm : runVerdicts verdict g g target stream m with
    | error e => rw [hm] at h; cases h
    | ok p =>
      rw [hm] at h
      obtain ⟨ts', es'⟩ := p
      cases ht : runTrial verdict g g target (stream m) with
      | error e => rw [ht] at h; cases h
      | ok ab =>
        rw [ht] at h
        obtain ⟨va, vb⟩ := ab
        simp only [pure, Except.pure, Except.ok.injEq, Prod.mk.injEq] at h
        rw [← h.1, ← h.2, ih hm, runTrial_same_graph ht]

/-- C5: round-trip — running the comparison with the estimated graph equal to
the true graph yields `FP = 0`, `FN = 0` and `TP + TN = mc` for every
completed run. -/
theorem round_trip_identical_graphs (verdict : Oracle) (g : NxDiGraph)
    (target : Node) (stream : Nat → TrialDraw) (mc : Nat) (c : Counters)
    (h : runCounters verdict g g target stream mc = Except.ok c) :
    c.fp = 0 ∧ c.fn = 0 ∧ c.tp + c.tn = mc := by
  obtain ⟨ts, es, hv, hc, hts, hes⟩ := runCounters_ok h
  have hsame := runVerdicts_same_graph hv
  subst hc
  subst hsame
  have hfp : (accumulate ts ts).fp = 0 := by
    rw [accumulate_fp]
    apply List.countP_eq_zero.mpr
    intro i hi
    simp
  have htot := accumulate_total ts ts
  unfold Counters.total at htot
  have hfn := accumulate_fn ts ts
  exact ⟨hfp, hfn, by omega⟩

/-- Witness for C5 at a concrete completed run (budget 4). -/
theorem round_trip_identical_graphs_witness :
    (Counters.mk 0 4 0 0).fp = 0 ∧ (Counters.mk 0 4 0 0).fn = 0 ∧
      (Counters.mk 0 4 0 0).tp + (Counters.mk 0 4 0 0).tn = 4 :=
  round_trip_identical_graphs demoVerdict demoGraph 0 demoStream 4
    ⟨0, 4, 0, 0⟩ rfl

lemma runVerdicts_congr (verdict : Oracle) (gT gE : NxDiGraph) (target : Node)
    {s1 s2 : Nat → TrialDraw} (mc : Nat) (h : ∀ k, k < mc → s1 k = s2 k) :
    runVerdicts verdict gT gE target s1 mc =
      runVerdicts verdict gT gE target s2 mc := by
  induction mc with
  | zero => rfl
  | succ m ih =>
    show (do
        let (ts, es) ← runVerdicts verdict gT gE target s1 m
        let (a, b) ← runTrial verdict gT gE target (s1 m)
        pure (ts ++ [a], es ++ [b]) : Except String _) = _
    rw [ih (fun k hk => h k (Nat.lt_succ_of_lt hk)), h m (Nat.lt_succ_self m)]
    rfl

/-- C8: determinism — the confusion counters are a function of the seeded
random draws and the run parameters alone: two runs over the same graphs,
target and budget whose draw streams agree on the consumed trials (as two
streams produced by the same seed do, the library generators being
deterministic functions of their seed) produce identical counters. -/
theorem deterministic_confusion_counters (verdict : Oracle)
    (gT gE : NxDiGraph) (target : Node) (s1 s2 : Nat → TrialDraw) (mc : Nat)
    (h : ∀ k, k < mc → s1 k = s2 k) :
    runCounters verdict gT gE target s1 mc =
      runCounters verdict gT gE target s2 mc := by
  unfold runCounters
  rw [runVerdicts_congr verdict gT gE target mc h]

/-- Witness for C8 at two concrete (equal) streams. -/
theorem deterministic_confusion_counters_witness :
    runCounters demoVerdict demoGraph demoGraph 0 demoStream 5 =
      runCounters demoVerdict demoGraph demoGraph 0 (fun _ => ⟨0, 0, []⟩) 5 :=
  deterministic_confusion_counters demoVerdict demoGraph demoGraph 0
    demoStream (fun _ => ⟨0, 0, []⟩) 5 (fun _ _ => rfl)

lemma mkPredictors_nodup (g : NxDiGraph) (target : Node) (h : g.nodes.Nodup) :
    (mkPredictors g target).Nodup :=
  List.Nodup.erase _ (((List.perm_insertionSort _ _).nodup_iff).mpr h)

lemma mkPredictors_subset (g : NxDiGraph) (target : Node) :
    mkPredictors g target ⊆ g.nodes := fun _ hx =>
  ((List.perm_insertionSort _ _).mem_iff).mp (List.mem_of_mem_erase hx)

lemma mkPredictors_length (g : NxDiGraph) (target : Node)
    (h : target ∈ g.nodes) :
    (mkPredictors g target).length = nPredictors g := by
  unfold mkPredictors nPredictors
  rw [List.length_erase_of_mem, (List.perm_insertionSort _ _).length_eq]
  rw [(List.perm_insertionSort _ _).mem_iff]
  exact h

lemma target_not_mem_mkPredictors (g : NxDiGraph) (target : Node)
    (h : g.nodes.Nodup) : target ∉ mkPredictors g target :=
  List.Nodup.not_mem_erase (((List.perm_insertionSort _ _).nodup_iff).mpr h)

lemma mem_mkPredictors {g : NxDiGraph} {target x : Node} (h : g.nodes.Nodup) :
    x ∈ mkPredictors g target ↔ x ≠ target ∧ x ∈ g.nodes := by
  unfold mkPredictors
  rw [List.Nodup.mem_erase_iff
    (((List.perm_insertionSort _ _).nodup_iff).mpr h),
    (List.perm_insertionSort _ _).mem_iff]

/-- C3: for every sampled trial whose draw the bounded generators can
produce, the conditioning set is disjoint from `{predictor, target}`, every
member is a deconfounder (a predictor other than the chosen one) and hence a
graph node, the set is empty when the drawn cardinality is 0 and otherwise
consists of exactly `card` distinct deconfounders, and its size `card` lies
in `[0, n-1]`. -/
theorem conditioning_set_invariants (g : NxDiGraph) (target : Node)
    (t : TrialDraw) (hnd : g.nodes.Nodup) (htg : target ∈ g.nodes)
    (hv : ValidDraw (nPredictors g) t) :
    trialNode g target t ∉ trialCondSet g target t ∧
      target ∉ trialCondSet g target t ∧
      (∀ x ∈ trialCondSet g target t,
        x ∈ trialDeconfounders g target t ∧ x ∈ g.nodes) ∧
      (trialCondSet g target t).Nodup ∧
      (trialCondSet g target t).length = t.card ∧
      t.card ≤ nPredictors g - 1 ∧
      (t.card = 0 → trialCondSet g target t = []) := by
  obtain ⟨hind, hcard, hidx⟩ := hv
  have hplen : (mkPredictors g target).length = nPredictors g :=
    mkPredictors_length g target htg
  have hpnd : (mkPredictors g target).Nodup := mkPredictors_nodup g target hnd
  have hindlt : t.ind < (mkPredictors g target).length := by omega
  have hnode : trialNode g target t ∈ mkPredictors g target := by
    unfold trialNode
    rw [List.getD_eq_getElem _ _ hindlt]
    exact List.getElem_mem hindlt
  have hdnd : (trialDeconfounders g target t).Nodup := List.Nodup.erase _ hpnd
  have hdlen : (trialDeconfounders g target t).length = nPredictors g - 1 := by
    unfold trialDeconfounders
    rw [List.length_erase_of_mem hnode, hplen]
  by_cases hc : t.card = 0
  · have hcs : trialCondSet g target t = [] := by simp [trialCondSet, hc]
    rw [hcs]
    refine ⟨List.not_mem_nil _, List.not_mem_nil _,
      fun x hx => absurd hx (List.not_mem_nil x), List.nodup_nil, ?_, ?_,
      fun _ => rfl⟩
    · rw [List.length_nil]
      omega
    · omega
  · obtain ⟨hlen, hnodup, hbound⟩ := hidx hc
    have hcs : trialCondSet g target t =
        t.indices.map (fun j => (trialDeconfounders g target t).getD j 0) := by
      simp [trialCondSet, hc]
    have hjlt : ∀ j ∈ t.indices, j < (trialDeconfounders g target t).length := by
      intro j hj
      rw [hdlen]
      exact hbound j hj
    have hmem : ∀ x ∈ trialCondSet g target t,
        x ∈ trialDeconfounders g target t := by
      rw [hcs]
      intro x hx
      obtain ⟨j, hj, rfl⟩ := List.mem_map.mp hx
      rw [List.getD_eq_getElem _ _ (hjlt j hj)]
      exact List.getElem_mem (hjlt j hj)
    refine ⟨?_, ?_, ?_, ?_, ?_, by omega, fun h0 => absurd h0 hc⟩
    · intro hx
      exact List.Nodup.not_mem_erase hpnd (hmem _ hx)
    · intro hx
      exact target_not_mem_mkPredictors g target hnd
        (List.mem_of_mem_erase (hmem _ hx))
    · exact fun x hx => ⟨hmem x hx,
        mkPredictors_subset g target (List.mem_of_mem_erase (hmem x hx))⟩
    · rw [hcs]
      refine List.Nodup.map_on ?_ hnodup
      intro j1 hj1 j2 hj2 heq
      rw [List.getD_eq_getElem _ _ (hjlt j1 hj1),
        List.getD_eq_getElem _ _ (hjlt j2 hj2)] at heq
      exact (List.Nodup.getElem_inj_iff hdnd).mp heq
    · rw [hcs, List.length_map, hlen]

/-- A four-node graph (a chain `1 → 2 → 3 → 0`) used by the witnesses;
target node 0. -/
def chainGraph : NxDiGraph := ⟨[0, 1, 2, 3], [(1, 2), (2, 3), (3, 0)]⟩

/-- Witness for C3 at a concrete trial: predictor index 1, cardinality 2,
deconfounder indices `[0, 1]`. -/
theorem conditioning_set_invariants_witness :
    trialNode chainGraph 0 ⟨1, 2, [0, 1]⟩ ∉
        trialCondSet chainGraph 0 ⟨1, 2, [0, 1]⟩ ∧
      (0 : Node) ∉ trialCondSet chainGraph 0 ⟨1, 2, [0, 1]⟩ ∧
      (∀ x ∈ trialCondSet chainGraph 0 ⟨1, 2, [0, 1]⟩,
        x ∈ trialDeconfounders chainGraph 0 ⟨1, 2, [0, 1]⟩ ∧
          x ∈ chainGraph.nodes) ∧
      (trialCondSet chainGraph 0 ⟨1, 2, [0, 1]⟩).Nodup ∧
      (trialCondSet chainGraph 0 ⟨1, 2, [0, 1]⟩).length =
        (TrialDraw.mk 1 2 [0, 1]).card ∧
      (TrialDraw.mk 1 2 [0, 1]).card ≤ nPredictors chainGraph - 1 ∧
      ((TrialDraw.mk 1 2 [0, 1]).card = 0 →
        trialCondSet chainGraph 0 ⟨1, 2, [0, 1]⟩ = []) :=
  conditioning_set_invariants chainGraph 0 ⟨1, 2, [0, 1]⟩ (by decide)
    (by decide) (by decide)

/-- C6: the predictor list is recomputed fresh from the true graph's node set
(a function of the graph and target only), sorted ascending with the target
removed, containing exactly `d - 1` distinct non-target nodes; the trial's
predictor is `predictors[ind]` for an index `ind` drawn uniformly over
`[0, n-1]`, and index selection is a bijection onto the predictor list
(distinct indices give distinct predictors and every predictor is reached),
so the uniform index induces a uniform predictor. -/
theorem predictor_list_fresh_and_uniform (g : NxDiGraph) (target : Node)
    (hnd : g.nodes.Nodup) (htg : target ∈ g.nodes) :
    (mkPredictors g target).length = g.nodes.length - 1 ∧
      (mkPredictors g target).Nodup ∧
      target ∉ mkPredictors g target ∧
      (∀ x, x ∈ mkPredictors g target ↔ x ≠ target ∧ x ∈ g.nodes) ∧
      List.Sorted (· ≤ ·) (mkPredictors g target) ∧
      (∀ t : TrialDraw, ValidDraw (nPredictors g) t →
        trialNode g target t ∈ mkPredictors g target) ∧
      (∀ i j : Nat, i < nPredictors g → j < nPredictors g →
        (mkPredictors g target).getD i 0 = (mkPredictors g target).getD j 0 →
        i = j) ∧
      (∀ x ∈ mkPredictors g target,
        ∃ i, i < nPredictors g ∧ (mkPredictors g target).getD i 0 = x) := by
  have hplen : (mkPredictors g target).length = nPredictors g :=
    mkPredictors_length g target htg
  have hpnd : (mkPredictors g target).Nodup := mkPredictors_nodup g target hnd
  refine ⟨hplen, hpnd, target_not_mem_mkPredictors g target hnd,
    fun x => mem_mkPredictors hnd, ?_, ?_, ?_, ?_⟩
  · exact List.Pairwise.sublist (List.erase_sublist _ _)
      (List.sorted_insertionSort _ _)
  · intro t hv
    have hindlt : t.ind < (mkPredictors g target).length := by
      rw [hplen]; exact hv.1
    unfold trialNode
    rw [List.getD_eq_getElem _ _ hindlt]
    exact List.getElem_mem hindlt
  · intro i j hi hj heq
    have hi' : i < (mkPredictors g target).length := by omega
    have hj' : j < (mkPredictors g target).length := by omega
    rw [List.getD_eq_getElem _ _ hi', List.getD_eq_getElem _ _ hj'] at heq
    exact (List.Nodup.getElem_inj_iff hpnd).mp heq
  · intro x hx
    obtain ⟨i, hi, hix⟩ := List.getElem_of_mem hx
    exact ⟨i, by omega, by rw [List.getD_eq_getElem _ _ hi]; exact hix⟩

/-- Witness for C6 on the four-node chain graph with target 0. -/
theorem predictor_list_fresh_and_uniform_witness :
    (mkPredictors chainGraph 0).length = chainGraph.nodes.length - 1 ∧
      (mkPredictors chainGraph 0).Nodup ∧
      (0 : Node) ∉ mkPredictors chainGraph 0 ∧
      (∀ x, x ∈ mkPredictors chainGraph 0 ↔
        x ≠ 0 ∧ x ∈ chainGraph.nodes) ∧
      List.Sorted (· ≤ ·) (mkPredictors chainGraph 0) ∧
      (∀ t : TrialDraw, ValidDraw (nPredictors chainGraph) t →
        trialNode chainGraph 0 t ∈ mkPredictors chainGraph 0) ∧
      (∀ i j : Nat, i < nPredictors chainGraph → j < nPredictors chainGraph →
        (mkPredictors chainGraph 0).getD i 0 =
          (mkPredictors chainGraph 0).getD j 0 → i = j) ∧
      (∀ x ∈ mkPredictors chainGraph 0,
        ∃ i, i < nPredictors chainGraph ∧
          (mkPredictors chainGraph 0).getD i 0 = x) :=
  predictor_list_fresh_and_uniform chainGraph 0 (by decide) (by decide)

/-- `x / y` reported as undefined (`none`) when the denominator is zero. -/
def rateOf (num den : Nat) : Option ℚ :=
  if den = 0 then none else some ((num : ℚ) / (den : ℚ))

/-- Modelled from the spec: the metric derivation of section 4.3.  The file
`gc_one_file.py` itself computes only `d_separated_total` and
`d_connected_total` (lines 140-141) and then ends; the precision / recall /
F1 / rate metrics named by the evaluation-table columns (lines 44-46) are
computed by the `GraphComparison` driver referenced (commented out) at
lines 70-71, which is missing from the repository snapshot.  Per the spec,
`precision = TP/(TP+FP)`, `recall = TP/(TP+FN)`,
`F1 = 2·precision·recall/(precision+recall)`, and each counter is divided by
its row total; a zero denominator yields the undefined marker `none`
(NaN-like), never a crash. -/
structure Metrics where
  separated_total : Nat
  connected_total : Nat
  tpRate : Option ℚ
  tnRate : Option ℚ
  fpRate : Option ℚ
  fnRate : Option ℚ
  precision : Option ℚ
  recallVal : Option ℚ
  f1 : Option ℚ

/-- Modelled from the spec: derive the output metrics from the confusion
counters once the trial budget is exhausted. -/
def deriveMetrics (c : Counters) : Metrics :=
  let sep := d_separated_total c
  let con := d_connected_total c
  let p := rateOf c.tp (c.tp + c.fp)
  let r := rateOf c.tp (c.tp + c.fn)
  { separated_total := sep
    connected_total := con
    tpRate := rateOf c.tp sep
    tnRate := rateOf c.tn con
    fpRate := rateOf c.fp con
    fnRate := rateOf c.fn sep
    precision := p
    recallVal := r
    f1 := match p, r with
      | some pv, some rv =>
        if pv + rv = 0 then none else some (2 * pv * rv / (pv + rv))
      | _, _ => none }

/-- C7: the derived totals match the source's `d_separated_total = tp + fn`
and `d_connected_total = tn + fp` (lines 140-141), and every derived metric
equals the specified ratio when its denominator is non-zero and is the
undefined marker (`none`, never a crash) when the denominator is zero. -/
theorem derived_metrics_spec (c : Counters) :
    (deriveMetrics c).separated_total = c.tp + c.fn ∧
      (deriveMetrics c).connected_total = c.tn + c.fp ∧
      (deriveMetrics c).separated_total = d_separated_total c ∧
      (deriveMetrics c).connected_total = d_connected_total c ∧
      (deriveMetrics c).precision =
        (if c.tp + c.fp = 0 then none
         else some ((c.tp : ℚ) / ((c.tp : ℚ) + (c.fp : ℚ)))) ∧
      (deriveMetrics c).recallVal =
        (if c.tp + c.fn = 0 then none
         else some ((c.tp : ℚ) / ((c.tp : ℚ) + (c.fn : ℚ)))) ∧
      (deriveMetrics c).tpRate =
        (if c.tp + c.fn = 0 then none
         else some ((c.tp : ℚ) / ((c.tp : ℚ) + (c.fn : ℚ)))) ∧
      (deriveMetrics c).fnRate =
        (if c.tp + c.fn = 0 then none
         else some ((c.fn : ℚ) / ((c.tp : ℚ) + (c.fn : ℚ)))) ∧
      (deriveMetrics c).tnRate =
        (if c.tn + c.fp = 0 then none
         else some ((c.tn : ℚ) / ((c.tn : ℚ) + (c.fp : ℚ)))) ∧
      (deriveMetrics c).fpRate =
        (if c.tn + c.fp = 0 then none
         else some ((c.fp : ℚ) / ((c.tn : ℚ) + (c.fp : ℚ)))) ∧
      (deriveMetrics c).f1 =
        (if c.tp + c.fp = 0 ∨ c.tp + c.fn = 0 then none
         else
           if (c.tp : ℚ) / ((c.tp : ℚ) + (c.fp : ℚ)) +
               (c.tp : ℚ) / ((c.tp : ℚ) + (c.fn : ℚ)) = 0 then none
           else some (2 * ((c.tp : ℚ) / ((c.tp : ℚ) + (c.fp : ℚ))) *
               ((c.tp : ℚ) / ((c.tp : ℚ) + (c.fn : ℚ))) /
             ((c.tp : ℚ) / ((c.tp : ℚ) + (c.fp : ℚ)) +
               (c.tp : ℚ) / ((c.tp : ℚ) + (c.fn : ℚ))))) := by
  unfold deriveMetrics rateOf d_separated_total d_connected_total
  refine ⟨rfl, rfl, rfl, rfl, ?_, ?_, ?_, ?_, ?_, ?_, ?_⟩
  · by_cases h : c.tp + c.fp = 0 <;> simp [h]
  · by_cases h : c.tp + c.fn = 0 <;> simp [h]
  · by_cases h : c.tp + c.fn = 0 <;> simp [h]
  · by_cases h : c.tp + c.fn = 0 <;> simp [h]
  · by_cases h : c.tn + c.fp = 0 <;> simp [h]
  · by_cases h : c.tn + c.fp = 0 <;> simp [h]
  · by_cases h1 : c.tp + c.fp = 0 <;> by_cases h2 : c.tp + c.fn = 0 <;>
      simp [h1, h2]

/-- Modelled from the spec: at run end one evaluation row is derived from the
confusion counters and appended to the evaluation table; on a fatal error no
(partial) row is produced. -/
def evalTableRow (verdict : Oracle) (gTrue gEst : NxDiGraph) (target : Node)
    (stream : Nat → TrialDraw) (mc : Nat) : Option Metrics :=
  ((runCounters verdict gTrue gEst target stream mc).toOption).map deriveMetrics

lemma runTrial_error_of_missing_node {verdict : Oracle} {gT gE : NxDiGraph}
    {target : Node} {t : TrialDraw}
    (hind : t.ind < (mkPredictors gT target).length)
    (hguard : t.card ≠ 0 →
      ∀ j ∈ t.indices, j < (trialDeconfounders gT target t).length)
    (hmiss : ∃ q, (q = trialNode gT target t ∨ q = target ∨
        q ∈ trialCondSet gT target t) ∧ (q ∉ gT.nodes ∨ q ∉ gE.nodes)) :
    ∃ e, runTrial verdict gT gE target t = Except.error e := by
  unfold runTrial
  dsimp only
  rw [if_pos hind]
  have hg : ¬ (t.card ≠ 0 ∧
      ¬ ∀ j ∈ t.indices, j < (trialDeconfounders gT target t).length) := by
    intro ⟨hc, hall⟩
    exact hall (hguard hc)
  rw [if_neg hg]
  obtain ⟨q, hq, hqmiss⟩ := hmiss
  by_cases h1 : trialNode gT target t ∈ gT.nodes ∧ target ∈ gT.nodes ∧
      ∀ w ∈ trialCondSet gT target t, w ∈ gT.nodes
  · have hqE : q ∉ gE.nodes := by
      rcases hqmiss with hqT | hqE
      · exfalso
        rcases hq with rfl | rfl | hqc
        · exact hqT h1.1
        · exact hqT h1.2.1
        · exact hqT (h1.2.2 q hqc)
      · exact hqE
    have h2 : ¬ (trialNode gT target t ∈ gE.nodes ∧ target ∈ gE.nodes ∧
        ∀ w ∈ trialCondSet gT target t, w ∈ gE.nodes) := by
      intro h2
      rcases hq with rfl | rfl | hqc
      · exact hqE h2.1
      · exact hqE h2.2.1
      · exact hqE (h2.2.2 q hqc)
    refine ⟨"NodeNotFound", ?_⟩
    rw [d_separated, if_pos h1]
    simp only [bind, Except.bind]
    rw [d_separated, if_neg h2]
  · refine ⟨"NodeNotFound", ?_⟩
    rw [d_separated, if_neg h1]
    simp only [bind, Except.bind]

lemma runVerdicts_error_of_first_trial {verdict : Oracle} {gT gE : NxDiGraph}
    {target : Node} {stream : Nat → TrialDraw} {e : String}
    (h0 : runTrial verdict gT gE target (stream 0) = Except.error e)
    {mc : Nat} (hmc : 1 ≤ mc) :
    ∃ e2, runVerdicts verdict gT gE target stream mc = Except.error e2 := by
  induction mc with
  | zero => omega
  | succ m ih =>
    by_cases hm : 1 ≤ m
    · obtain ⟨e2, he2⟩ := ih hm
      exact ⟨e2, by simp only [runVerdicts, bind, Except.bind, he2]⟩
    · have hm0 : m = 0 := by omega
      subst hm0
      exact ⟨e, by simp only [runVerdicts, bind, Except.bind, h0]⟩

/-- C9: if the predictor, the target, or a conditioning-set member of the
first trial's query is not a known node of the true or of the estimated
graph, the separation call fails with the NodeNotFound lookup error, the run
aborts (the trial is not silently skipped: the whole run is an
`Except.error`), and no evaluation-table row is produced. -/
theorem lookup_error_aborts_run (verdict : Oracle) (gT gE : NxDiGraph)
    (target : Node) (stream : Nat → TrialDraw) (mc : Nat)
    (htgT : target ∈ gT.nodes) (hv : ValidDraw (nPredictors gT) (stream 0))
    (hnode : trialNode gT target (stream 0) ∈ mkPredictors gT target)
    (hmc : 1 ≤ mc)
    (hmiss : ∃ q, (q = trialNode gT target (stream 0) ∨ q = target ∨
        q ∈ trialCondSet gT target (stream 0)) ∧
      (q ∉ gT.nodes ∨ q ∉ gE.nodes)) :
    (∃ e, runCounters verdict gT gE target stream mc = Except.error e) ∧
      evalTableRow verdict gT gE target stream mc = none := by
  have hplen : (mkPredictors gT target).length = nPredictors gT :=
    mkPredictors_length gT target htgT
  have hind : (stream 0).ind < (mkPredictors gT target).length := by
    rw [hplen]; exact hv.1
  have hdlen : (trialDeconfounders gT target (stream 0)).length =
      nPredictors gT - 1 := by
    unfold trialDeconfounders
    rw [List.length_erase_of_mem hnode, hplen]
  have hguard : (stream 0).card ≠ 0 → ∀ j ∈ (stream 0).indices,
      j < (trialDeconfounders gT target (stream 0)).length := by
    intro hc j hj
    rw [hdlen]
    exact (hv.2.2 hc).2.2 j hj
  obtain ⟨e, he⟩ := @runTrial_error_of_missing_node verdict gT gE target
    (stream 0) hind hguard hmiss
  obtain ⟨e2, he2⟩ := runVerdicts_error_of_first_trial he hmc
  refine ⟨⟨e2, ?_⟩, ?_⟩
  · unfold runCounters
    simp only [bind, Except.bind, he2]
  · unfold evalTableRow runCounters
    simp only [bind, Except.bind, he2, Except.toOption]
    rfl

/-- The estimated graph of the C9 witness: nodes `{1, 2, 3}` — it lacks the
target node 0 of the true chain graph. -/
def estGraphMissingTarget : NxDiGraph := ⟨[1, 2, 3], [(1, 2), (2, 3)]⟩

/-- Witness for C9: target 0 is a node of the true graph but not of the
estimated graph, so the run with budget 1 aborts with a lookup error and
produces no row. -/
theorem lookup_error_aborts_run_witness :
    (∃ e, runCounters demoVerdict chainGraph estGraphMissingTarget 0
        demoStream 1 = Except.error e) ∧
      evalTableRow demoVerdict chainGraph estGraphMissingTarget 0
        demoStream 1 = none :=
  lookup_error_aborts_run demoVerdict chainGraph estGraphMissingTarget 0
    demoStream 1 (by decide) (by decide) (by decide) (by decide)
    ⟨0, Or.inr (Or.inl rfl), Or.inr (by decide)⟩
